import Mathlib

/-!
Shallow embedding of `audioset_downloader.py` (class `Downloader`), centred on
`Downloader.download_file` (the per-item download pipeline, lines 126-178) and
the catalog slicing / dispatch performed by `Downloader.download` (lines
89-124).

Modelling conventions, matching the source:
* File contents are an abstract type `α`.
* The audio probe `Downloader.get_audio_duration` (ffprobe) is an arbitrary
  function `validator : α → Option ℚ`; `none` is the `except`-branch of
  `get_audio_duration` (probe failure / missing or unparsable metadata), and
  durations are rationals standing for the parsed float.
* One fetch call `os.system(yt-dlp ... --output file_path ...)` is an
  arbitrary function `fetcher : Nat → Option α → Option α`: given the attempt
  number and the content currently at the target path, it yields the content
  present at the path after the call (`none` = no file was produced and any
  previous file is gone, identity = the call failed leaving the path alone).
* `time.sleep(retry_delay)` and the cookie-refresh side call
  (`yt-dlp --cookies-from-browser firefox --skip-download ...`) touch no file
  under `root_path`, so they have no representation in the filesystem state.
* Python `dict` lookups (`machine_to_display_mapping[label]`) raise `KeyError`
  on a miss; a raised exception is an `Except.error` and propagates.
-/

deriving instance DecidableEq for Except

/-- Outcome of one task, classifying the three return paths of
`Downloader.download_file`: the `[SKIP]` return (line 144), the `[FAILED]`
return (line 171), and the normal return after a successful fetch. -/
inductive Outcome where
  | Skipped
  | Succeeded
  | Failed
deriving DecidableEq, Repr

/-- One catalog row as passed to `download_file`: `YTID`, `start_seconds`,
`end_seconds`, `positive_labels`.  The two timestamps only ever appear
interpolated into a file name (`f"{ytid}_{start_seconds}-{end_seconds}.{ext}"`),
so they are kept as the strings they print as. -/
structure DownloadTask where
  ytid : String
  start_seconds : String
  end_seconds : String
  positive_labels : String
deriving DecidableEq, Repr

/-- The `Downloader` configuration fields used by `download_file`:
`root_path`, `copy_and_replicate`, `max_retries`, the `format` set by
`download`, and `machine_to_display_mapping` (an association list standing for
the Python dict). -/
structure Config where
  root_path : String
  copy_and_replicate : Bool
  max_retries : Nat
  format : String
  machine_to_display_mapping : List (String × String)
deriving DecidableEq, Repr

/-- Filesystem state: the set of directories created so far, and the files
present, as an association list from path to content.  A `files` entry maps a
path to `some f` (file with content `f`) or is absent / shadowed (`none`,
no file).  The most recent entry for a path wins. -/
structure FS (α : Type) where
  dirs : List String
  files : List (String × Option α)
deriving DecidableEq, Repr

/-- Embedding of `os.path.join` (separator abstracted to `/`). -/
def pathJoin (a b : String) : String :=
  a ++ "/" ++ b

/-- Content at `p`, i.e. `os.path.exists(p)` holds iff this is `some _`. -/
def getFile {α : Type} (fs : FS α) (p : String) : Option α :=
  match fs.files.lookup p with
  | some v => v
  | none => none

/-- Set (or, with `none`, remove) the content at path `p`. -/
def setFile {α : Type} (fs : FS α) (p : String) (v : Option α) : FS α :=
  { fs with files := (p, v) :: fs.files }

/-- Embedding of `os.remove(p)`. -/
def removeFile {α : Type} (fs : FS α) (p : String) : FS α :=
  setFile fs p none

/-- Embedding of `os.makedirs(d, exist_ok=True)`. -/
def mkdir {α : Type} (fs : FS α) (d : String) : FS α :=
  if d ∈ fs.dirs then fs else { fs with dirs := d :: fs.dirs }

/-- Embedding of `os.system(f'cp "{src}" "{dst}"')`: copies the content at
`src` to `dst` when `src` exists; a failed `cp` (missing source) leaves the
filesystem alone. -/
def cp {α : Type} (fs : FS α) (src dst : String) : FS α :=
  match getFile fs src with
  | some f => setFile fs dst (some f)
  | none => fs

/-- The extension dictionary of line 137:
`{'vorbis':'ogg','wav':'wav','mp3':'mp3','flac':'flac','opus':'opus','m4a':'m4a'}`. -/
def extMap : List (String × String) :=
  [("vorbis", "ogg"), ("wav", "wav"), ("mp3", "mp3"), ("flac", "flac"),
   ("opus", "opus"), ("m4a", "m4a")]

/-- Embedding of `extMap.get(format, format)` (line 137): the mapped extension,
or the format string itself when it is not a key of the dictionary. -/
def extOf (format : String) : String :=
  (extMap.lookup format).getD format

/-- Embedding of the file-name expression
`f"{ytid}_{start_seconds}-{end_seconds}.{ext}"` (lines 138, 175). -/
def fileName (ytid startS endS ext : String) : String :=
  ytid ++ "_" ++ startS ++ "-" ++ endS ++ "." ++ ext

/-- Embedding of the Python truthiness test `duration and duration > 0.0`
(lines 143, 156): `0.0` and `None` are falsy, so the test passes exactly for a
reported strictly positive duration. -/
def durValid (o : Option ℚ) : Bool :=
  match o with
  | none => false
  | some d => decide (d ≠ 0) && decide (0 < d)

/-- Embedding of
`self.get_audio_duration(file_path) if os.path.exists(file_path) else None`
(line 155) applied to the content `o` at `file_path`. -/
def postDur {α : Type} (validator : α → Option ℚ) (o : Option α) : Option ℚ :=
  match o with
  | some f => validator f
  | none => none

/-- Effect of one fetch call (`os.system(command)`, line 153) on the
filesystem: the content at the canonical path is rewritten by the fetcher. -/
def fetchWrite {α : Type} (fetcher : Nat → Option α → Option α) (n : Nat)
    (path : String) (fs : FS α) : FS α :=
  setFile fs path (fetcher n (getFile fs path))

/-- Result of the retry loop of lines 150-167: the final value of the Python
variable `attempt`, the filesystem, the number of fetch calls made,
`preStates` = the filesystem at the moment each fetch call starts, and
`retryNums` = the attempt numbers printed by the `[RETRY] Attempt
{attempt}/{max_retries}` line (printed after `attempt += 1`). -/
structure LoopOut (α : Type) where
  attempt : Nat
  fs : FS α
  fetches : Nat
  preStates : List (FS α)
  retryNums : List Nat
deriving DecidableEq, Repr

/-- Embedding of the `while attempt < self.max_retries` loop (lines 150-167).
The fuel argument is `max_retries - attempt`, so the loop guard is `fuel > 0`;
the second argument is the current value of `attempt`.  A loop body: fetch
(`os.system(command)`), probe, `break` on a valid duration, otherwise
`attempt += 1` (the cookie refresh and `time.sleep` change no file). -/
def retryLoopAux {α : Type} (fetcher : Nat → Option α → Option α)
    (validator : α → Option ℚ) (path : String) :
    Nat → Nat → FS α → LoopOut α
  | 0, attempt, fs => ⟨attempt, fs, 0, [], []⟩
  | rem + 1, attempt, fs =>
    let fs1 := fetchWrite fetcher attempt path fs
    if durValid (postDur validator (getFile fs1 path)) then
      ⟨attempt, fs1, 1, [fs], []⟩
    else
      let r := retryLoopAux fetcher validator path rem (attempt + 1) fs1
      ⟨r.attempt, r.fs, r.fetches + 1, fs :: r.preStates, (attempt + 1) :: r.retryNums⟩

/-- The list `[s, s+1, ..., s+n-1]`, used to state what the printed retry
numbers are. -/
def countFrom : Nat → Nat → List Nat
  | _, 0 => []
  | s, n + 1 => s :: countFrom (s + 1) n

/-- Character-level splitter behind `stringSplit`: the groups of characters
between occurrences of `sep`, keeping empty groups, with `[[]]` for the empty
input — exactly the grouping of Python `str.split` with an explicit
separator. -/
def splitChars (sep : Char) : List Char → List (List Char)
  | [] => [[]]
  | c :: cs =>
    if c = sep then [] :: splitChars sep cs
    else
      match splitChars sep cs with
      | [] => [[c]]
      | g :: gs => (c :: g) :: gs

/-- Embedding of Python `s.split(sep)` for a one-character separator: splits
at every occurrence, keeps empty pieces, and yields `[""]` on the empty
string. -/
def stringSplit (s : String) (sep : Char) : List String :=
  (splitChars sep s.data).map List.asString

/-- Embedding of `positive_labels.split(',')` (lines 130, 134, 140, 174). -/
def taskLabels (t : DownloadTask) : List String :=
  stringSplit t.positive_labels ','

/-- Embedding of `positive_labels.split(',')[0]` (lines 134, 140).  `split`
never yields an empty list, so the default never fires. -/
def primaryLabel (t : DownloadTask) : String :=
  (taskLabels t).headD ""

/-- Python dict lookup `machine_to_display_mapping[label]`: raises `KeyError`
on a miss (modelled as `Except.error`). -/
def lookupE (mapping : List (String × String)) (label : String) :
    Except String String :=
  match mapping.lookup label with
  | some d => .ok d
  | none => .error ("KeyError: " ++ label)

/-- Embedding of the directory-creation loop of lines 130-132:
`for label in positive_labels.split(','): os.makedirs(join(root_path,
machine_to_display_mapping[label]), exist_ok=True)`. -/
def ensureDirs {α : Type} (cfg : Config) :
    List String → FS α → Except String (FS α)
  | [], fs => .ok fs
  | label :: rest, fs =>
    match lookupE cfg.machine_to_display_mapping label with
    | .error e => .error e
    | .ok d => ensureDirs cfg rest (mkdir fs (pathJoin cfg.root_path d))

/-- Embedding of lines 128-135: all label directories are created when
`copy_and_replicate` is set, only the primary label's directory otherwise. -/
def makedirsPhase {α : Type} (cfg : Config) (t : DownloadTask) (fs : FS α) :
    Except String (FS α) :=
  if cfg.copy_and_replicate then
    ensureDirs cfg (taskLabels t) fs
  else
    match lookupE cfg.machine_to_display_mapping (primaryLabel t) with
    | .error e => .error e
    | .ok d => .ok (mkdir fs (pathJoin cfg.root_path d))

/-- The file name built on line 138 for the current task. -/
def fileNameOf (cfg : Config) (t : DownloadTask) : String :=
  fileName t.ytid t.start_seconds t.end_seconds (extOf cfg.format)

/-- Destination path under the display label `d`, following
`os.path.join(root_path, display_label, f"{ytid}_{start}-{end}.{ext}")`
(lines 138, 176). -/
def labelPath (cfg : Config) (d : String) (t : DownloadTask) : String :=
  pathJoin (pathJoin cfg.root_path d) (fileNameOf cfg t)

/-- Embedding of lines 140-138: the canonical path
`os.path.join(root_path, first_display_label, f"{ytid}_{start}-{end}.{ext}")`,
where `first_display_label = machine_to_display_mapping[split(',')[0]]` may
raise `KeyError`. -/
def canonicalPath (cfg : Config) (t : DownloadTask) : Except String String :=
  match lookupE cfg.machine_to_display_mapping (primaryLabel t) with
  | .error e => .error e
  | .ok d => .ok (labelPath cfg d t)

/-- Embedding of the replication loop of lines 173-177:
`for label in positive_labels.split(',')[1:]: cp canonical target`, where each
target is built from `machine_to_display_mapping[label]` (raising on a miss). -/
def replicateCopies {α : Type} (cfg : Config) (name src : String) :
    List String → FS α → Except String (FS α)
  | [], fs => .ok fs
  | label :: rest, fs =>
    match lookupE cfg.machine_to_display_mapping label with
    | .error e => .error e
    | .ok d =>
      replicateCopies cfg name src rest
        (cp fs src (pathJoin (pathJoin cfg.root_path d) name))

/-- Result of one `download_file` call: the outcome (which return path was
taken), the final filesystem, the number of fetch calls, and the loop traces
(see `LoopOut`). -/
structure RunResult (α : Type) where
  outcome : Outcome
  fs : FS α
  fetches : Nat
  preStates : List (FS α)
  retryNums : List Nat
deriving DecidableEq, Repr

/-- Embedding of lines 150-177: the retry loop, the
`if attempt == self.max_retries: return` check (the `[FAILED]` path), and the
replication loop that runs only on the successful path and only when
`copy_and_replicate` is set. -/
def downloadLoopPhase {α : Type} (cfg : Config) (validator : α → Option ℚ)
    (fetcher : Nat → Option α → Option α) (labels : List String)
    (path name : String) (fs : FS α) : Except String (RunResult α) :=
  let r := retryLoopAux fetcher validator path cfg.max_retries 0 fs
  if r.attempt = cfg.max_retries then
    .ok ⟨.Failed, r.fs, r.fetches, r.preStates, r.retryNums⟩
  else if cfg.copy_and_replicate then
    match replicateCopies cfg name path labels.tail r.fs with
    | .error e => .error e
    | .ok fs2 => .ok ⟨.Succeeded, fs2, r.fetches, r.preStates, r.retryNums⟩
  else
    .ok ⟨.Succeeded, r.fs, r.fetches, r.preStates, r.retryNums⟩

/-- Embedding of `Downloader.download_file` (lines 126-178): create the label
directories, build the canonical path, skip when a valid file is already
there, delete an existing invalid file, then run the fetch-retry loop and, on
success, the replication loop. -/
def download_file {α : Type} (cfg : Config) (validator : α → Option ℚ)
    (fetcher : Nat → Option α → Option α) (t : DownloadTask) (fs : FS α) :
    Except String (RunResult α) :=
  match makedirsPhase cfg t fs with
  | .error e => .error e
  | .ok fs1 =>
    match canonicalPath cfg t with
    | .error e => .error e
    | .ok path =>
      match getFile fs1 path with
      | some f =>
        if durValid (validator f) then
          .ok ⟨.Skipped, fs1, 0, [], []⟩
        else
          downloadLoopPhase cfg validator fetcher (taskLabels t) path
            (fileNameOf cfg t) (removeFile fs1 path)
      | none =>
        downloadLoopPhase cfg validator fetcher (taskLabels t) path
          (fileNameOf cfg t) fs1

/-- Embedding of `metadata.reset_index(drop=True)` followed by reading the
frame as labelled rows: after the reset the row labels are `0..n-1`. -/
def resetIndex (catalog : List DownloadTask) : List (Nat × DownloadTask) :=
  (List.range catalog.length).zip catalog

/-- Embedding of the chunk slicing of lines 104-108:
`metadata = metadata.iloc[start_idx:]` then `metadata = metadata.iloc[:end_idx]`
(each applied only when the option is set).  `iloc` slices by position and
keeps the existing row labels. -/
def sliceRows (rows : List (Nat × DownloadTask)) (start_idx end_idx : Option Nat) :
    List (Nat × DownloadTask) :=
  let r1 := match start_idx with
    | some s => rows.drop s
    | none => rows
  match end_idx with
  | some e => r1.take e
  | none => r1

/-- Embedding of the row access `metadata.loc[i, ...]` (lines 115-119): a
label-based lookup that raises `KeyError` when no row carries the label `i`. -/
def locRow (rows : List (Nat × DownloadTask)) (i : Nat) : Except String DownloadTask :=
  match rows.lookup i with
  | some t => .ok t
  | none => .error ("KeyError: " ++ toString i)

/-- The tasks handed to `joblib.delayed(self.download_file)` by the generator
of lines 113-121: `metadata.loc[i, ...]` for `i in range(len(metadata))`.  A
`KeyError` while building an argument tuple aborts the generator and hence the
whole `joblib.Parallel` call. -/
def plannedTasks (rows : List (Nat × DownloadTask)) : List Nat → Except String (List DownloadTask)
  | [] => .ok []
  | i :: rest =>
    match locRow rows i with
    | .error e => .error e
    | .ok t =>
      match plannedTasks rows rest with
      | .error e => .error e
      | .ok ts => .ok (t :: ts)

/-- The dispatch plan of `Downloader.download`: filter/reset (giving labelled
rows `0..n-1`), slice per `start_idx`/`end_idx`, then collect
`metadata.loc[i, ...]` for `i in range(len(metadata))`. -/
def downloadPlan (catalog : List DownloadTask) (start_idx end_idx : Option Nat) :
    Except String (List DownloadTask) :=
  let rows := sliceRows (resetIndex catalog) start_idx end_idx
  plannedTasks rows (List.range rows.length)

/-- Sequential execution of the dispatch loop (`joblib.Parallel` with the
default `n_jobs=1`): for each `i`, look the row up by label and run
`download_file` on it; an exception raised by either step propagates and the
remaining tasks never run. -/
def dispatchLoop {α : Type} (cfg : Config) (validator : α → Option ℚ)
    (fetcher : DownloadTask → Nat → Option α → Option α) (rows : List (Nat × DownloadTask)) :
    List Nat → FS α → Except String (List Outcome × FS α)
  | [], fs => .ok ([], fs)
  | i :: rest, fs =>
    match locRow rows i with
    | .error e => .error e
    | .ok t =>
      match download_file cfg validator (fetcher t) t fs with
      | .error e => .error e
      | .ok r =>
        match dispatchLoop cfg validator fetcher rows rest r.fs with
        | .error e => .error e
        | .ok (outs, fs2) => .ok (r.outcome :: outs, fs2)

/-- Embedding of the `joblib.Parallel(...)` call of lines 113-121 run
sequentially (`n_jobs=1`, the constructor default). -/
def dispatchAll {α : Type} (cfg : Config) (validator : α → Option ℚ)
    (fetcher : DownloadTask → Nat → Option α → Option α) (rows : List (Nat × DownloadTask))
    (fs : FS α) : Except String (List Outcome × FS α) :=
  dispatchLoop cfg validator fetcher rows (List.range rows.length) fs

/-! ### Filesystem laws -/

theorem getFile_setFile_same {α : Type} (fs : FS α) (p : String) (v : Option α) :
    getFile (setFile fs p v) p = v := by
  simp [getFile, setFile, List.lookup]

theorem getFile_setFile_other {α : Type} (fs : FS α) (p q : String) (v : Option α)
    (h : q ≠ p) : getFile (setFile fs p v) q = getFile fs q := by
  simp [getFile, setFile, List.lookup, beq_eq_false_iff_ne.mpr h]

theorem setFile_dirs {α : Type} (fs : FS α) (p : String) (v : Option α) :
    (setFile fs p v).dirs = fs.dirs := rfl

theorem getFile_removeFile_same {α : Type} (fs : FS α) (p : String) :
    getFile (removeFile fs p) p = none :=
  getFile_setFile_same fs p none

theorem getFile_removeFile_other {α : Type} (fs : FS α) (p q : String) (h : q ≠ p) :
    getFile (removeFile fs p) q = getFile fs q :=
  getFile_setFile_other fs p q none h

theorem removeFile_dirs {α : Type} (fs : FS α) (p : String) :
    (removeFile fs p).dirs = fs.dirs := rfl

theorem mkdir_files {α : Type} (fs : FS α) (d : String) :
    (mkdir fs d).files = fs.files := by
  unfold mkdir; split <;> rfl

theorem getFile_mkdir {α : Type} (fs : FS α) (d p : String) :
    getFile (mkdir fs d) p = getFile fs p := by
  unfold getFile; rw [mkdir_files]

theorem mkdir_dirs_sub {α : Type} (fs : FS α) (d : String) :
    fs.dirs ⊆ (mkdir fs d).dirs := by
  unfold mkdir; split
  · exact fun x hx => hx
  · exact fun x hx => List.mem_cons_of_mem _ hx

theorem mem_mkdir_dirs {α : Type} (fs : FS α) (d : String) :
    d ∈ (mkdir fs d).dirs := by
  unfold mkdir; split
  · assumption
  · exact List.mem_cons_self _ _

theorem cp_dirs {α : Type} (fs : FS α) (s t : String) :
    (cp fs s t).dirs = fs.dirs := by
  unfold cp
  cases h : getFile fs s <;> simp [h, setFile_dirs]

theorem getFile_cp_src {α : Type} (fs : FS α) (s t : String) :
    getFile (cp fs s t) s = getFile fs s := by
  unfold cp
  cases h : getFile fs s with
  | none => simp [h]
  | some f =>
    simp only [h]
    by_cases hst : s = t
    · subst hst; rw [getFile_setFile_same]
    · rw [getFile_setFile_other _ _ _ _ hst]; exact h

theorem getFile_cp_target {α : Type} (fs : FS α) (s t : String) (f : α)
    (h : getFile fs s = some f) : getFile (cp fs s t) t = some f := by
  unfold cp
  simp only [h]
  rw [getFile_setFile_same]

theorem getFile_cp_other {α : Type} (fs : FS α) (s t q : String) (h : q ≠ t) :
    getFile (cp fs s t) q = getFile fs q := by
  unfold cp
  cases hs : getFile fs s with
  | none => simp [hs]
  | some f =>
    simp only [hs]
    rw [getFile_setFile_other _ _ _ _ h]

/-! ### Basic facts about the duration test -/

theorem durValid_postDur_some {α : Type} (validator : α → Option ℚ) (f : α) :
    durValid (postDur validator (some f)) = durValid (validator f) := rfl

theorem durValid_none : durValid (none : Option ℚ) = false := rfl

theorem durValid_postDur_elim {α : Type} (validator : α → Option ℚ) (o : Option α)
    (h : durValid (postDur validator o) = true) :
    ∃ f, o = some f ∧ durValid (validator f) = true := by
  cases o with
  | none => simp [postDur, durValid] at h
  | some f => exact ⟨f, rfl, h⟩

theorem durValid_elim (o : Option ℚ) (h : durValid o = true) :
    ∃ d, o = some d ∧ 0 < d := by
  cases o with
  | none => simp [durValid] at h
  | some d =>
    refine ⟨d, rfl, ?_⟩
    simp [durValid] at h
    exact h.2

/-! ### Directory-creation phase -/

theorem ensureDirs_files {α : Type} (cfg : Config) (ls : List String) :
    ∀ (fs fs' : FS α), ensureDirs cfg ls fs = .ok fs' → fs'.files = fs.files := by
  induction ls with
  | nil =>
    intro fs fs' h
    simp [ensureDirs] at h
    rw [← h]
  | cons l rest ih =>
    intro fs fs' h
    unfold ensureDirs at h
    cases hl : lookupE cfg.machine_to_display_mapping l with
    | error e => rw [hl] at h; simp at h
    | ok d =>
      rw [hl] at h
      rw [ih _ _ h, mkdir_files]

theorem ensureDirs_dirs_sub {α : Type} (cfg : Config) (ls : List String) :
    ∀ (fs fs' : FS α), ensureDirs cfg ls fs = .ok fs' → fs.dirs ⊆ fs'.dirs := by
  induction ls with
  | nil =>
    intro fs fs' h
    simp [ensureDirs] at h
    rw [← h]
    exact fun x hx => hx
  | cons l rest ih =>
    intro fs fs' h
    unfold ensureDirs at h
    cases hl : lookupE cfg.machine_to_display_mapping l with
    | error e => rw [hl] at h; simp at h
    | ok d =>
      rw [hl] at h
      exact fun x hx => ih _ _ h (mkdir_dirs_sub _ _ hx)

theorem ensureDirs_mem {α : Type} (cfg : Config) (ls : List String) :
    ∀ (fs fs' : FS α), ensureDirs cfg ls fs = .ok fs' →
      ∀ l ∈ ls, ∀ d, List.lookup l cfg.machine_to_display_mapping = some d →
        pathJoin cfg.root_path d ∈ fs'.dirs := by
  induction ls with
  | nil => intro fs fs' _ l hl; simp at hl
  | cons l0 rest ih =>
    intro fs fs' h l hl d hd
    unfold ensureDirs at h
    cases hl0 : lookupE cfg.machine_to_display_mapping l0 with
    | error e => rw [hl0] at h; simp at h
    | ok d0 =>
      rw [hl0] at h
      rcases List.mem_cons.mp hl with heq | htail
      · subst heq
        have hd0 : d0 = d := by
          unfold lookupE at hl0
          rw [hd] at hl0
          simp at hl0
          exact hl0.symm
        subst hd0
        exact ensureDirs_dirs_sub cfg rest _ _ h (mem_mkdir_dirs _ _)
      · exact ih _ _ h l htail d hd

theorem ensureDirs_ok_any {α : Type} (cfg : Config) (ls : List String) :
    ∀ (fs gs fs' : FS α), ensureDirs cfg ls fs = .ok fs' →
      ∃ gs', ensureDirs cfg ls gs = .ok gs' := by
  induction ls with
  | nil => intro fs gs fs' _; exact ⟨gs, rfl⟩
  | cons l rest ih =>
    intro fs gs fs' h
    unfold ensureDirs at h
    cases hl : lookupE cfg.machine_to_display_mapping l with
    | error e => rw [hl] at h; simp at h
    | ok d =>
      rw [hl] at h
      obtain ⟨gs', hgs⟩ := ih _ (mkdir gs (pathJoin cfg.root_path d)) _ h
      exact ⟨gs', by unfold ensureDirs; rw [hl]; exact hgs⟩

theorem makedirsPhase_files {α : Type} (cfg : Config) (t : DownloadTask)
    (fs fs' : FS α) (h : makedirsPhase cfg t fs = .ok fs') : fs'.files = fs.files := by
  unfold makedirsPhase at h
  cases hc : cfg.copy_and_replicate with
  | true =>
    rw [hc] at h
    simp at h
    exact ensureDirs_files cfg _ _ _ h
  | false =>
    rw [hc] at h
    simp at h
    cases hl : lookupE cfg.machine_to_display_mapping (primaryLabel t) with
    | error e => rw [hl] at h; simp at h
    | ok d =>
      rw [hl] at h
      simp at h
      rw [← h, mkdir_files]

theorem makedirsPhase_ok_any {α : Type} (cfg : Config) (t : DownloadTask)
    (fs gs fs' : FS α) (h : makedirsPhase cfg t fs = .ok fs') :
    ∃ gs', makedirsPhase cfg t gs = .ok gs' := by
  unfold makedirsPhase at h ⊢
  cases hc : cfg.copy_and_replicate with
  | true =>
    rw [hc] at h
    simp at h ⊢
    exact ensureDirs_ok_any cfg _ _ gs _ h
  | false =>
    rw [hc] at h
    simp at h ⊢
    cases hl : lookupE cfg.machine_to_display_mapping (primaryLabel t) with
    | error e => rw [hl] at h; simp at h
    | ok d => exact ⟨_, rfl⟩

theorem makedirsPhase_mem_true {α : Type} (cfg : Config) (t : DownloadTask)
    (fs fs' : FS α) (h : makedirsPhase cfg t fs = .ok fs')
    (hc : cfg.copy_and_replicate = true) :
    ∀ l ∈ taskLabels t, ∀ d, List.lookup l cfg.machine_to_display_mapping = some d →
      pathJoin cfg.root_path d ∈ fs'.dirs := by
  unfold makedirsPhase at h
  rw [hc] at h
  simp at h
  exact ensureDirs_mem cfg _ _ _ h

theorem makedirsPhase_mem_false {α : Type} (cfg : Config) (t : DownloadTask)
    (fs fs' : FS α) (h : makedirsPhase cfg t fs = .ok fs')
    (hc : cfg.copy_and_replicate = false) :
    ∀ d, List.lookup (primaryLabel t) cfg.machine_to_display_mapping = some d →
      pathJoin cfg.root_path d ∈ fs'.dirs := by
  intro d hd
  unfold makedirsPhase at h
  rw [hc] at h
  simp at h
  cases hl : lookupE cfg.machine_to_display_mapping (primaryLabel t) with
  | error e => rw [hl] at h; simp at h
  | ok d0 =>
    rw [hl] at h
    simp at h
    have hd0 : d0 = d := by
      unfold lookupE at hl
      rw [hd] at hl
      simp at hl
      exact hl.symm
    subst hd0
    rw [← h]
    exact mem_mkdir_dirs _ _

/-! ### Retry-loop lemmas -/

theorem retryLoopAux_succ_pos {α : Type} (fetcher : Nat → Option α → Option α)
    (validator : α → Option ℚ) (path : String) (n a : Nat) (fs : FS α)
    (hcond : durValid (postDur validator
      (getFile (fetchWrite fetcher a path fs) path)) = true) :
    retryLoopAux fetcher validator path (n + 1) a fs =
      ⟨a, fetchWrite fetcher a path fs, 1, [fs], []⟩ := by
  simp only [retryLoopAux]
  rw [if_pos hcond]

theorem retryLoopAux_succ_neg {α : Type} (fetcher : Nat → Option α → Option α)
    (validator : α → Option ℚ) (path : String) (n a : Nat) (fs : FS α)
    (hcond : durValid (postDur validator
      (getFile (fetchWrite fetcher a path fs) path)) = false) :
    retryLoopAux fetcher validator path (n + 1) a fs =
      ⟨(retryLoopAux fetcher validator path n (a + 1) (fetchWrite fetcher a path fs)).attempt,
       (retryLoopAux fetcher validator path n (a + 1) (fetchWrite fetcher a path fs)).fs,
       (retryLoopAux fetcher validator path n (a + 1) (fetchWrite fetcher a path fs)).fetches + 1,
       fs :: (retryLoopAux fetcher validator path n (a + 1) (fetchWrite fetcher a path fs)).preStates,
       (a + 1) :: (retryLoopAux fetcher validator path n (a + 1)
         (fetchWrite fetcher a path fs)).retryNums⟩ := by
  simp only [retryLoopAux]
  rw [if_neg (by simp [hcond])]

theorem retryLoopAux_dirs {α : Type} (fetcher : Nat → Option α → Option α)
    (validator : α → Option ℚ) (path : String) :
    ∀ (rem a : Nat) (fs : FS α),
      (retryLoopAux fetcher validator path rem a fs).fs.dirs = fs.dirs := by
  intro rem
  induction rem with
  | zero => intro a fs; rfl
  | succ n ih =>
    intro a fs
    cases hc : durValid (postDur validator
        (getFile (fetchWrite fetcher a path fs) path)) with
    | true =>
      rw [retryLoopAux_succ_pos fetcher validator path n a fs hc]
      rfl
    | false =>
      rw [retryLoopAux_succ_neg fetcher validator path n a fs hc]
      rw [ih]
      rfl

theorem retryLoopAux_preStates_dirs {α : Type} (fetcher : Nat → Option α → Option α)
    (validator : α → Option ℚ) (path : String) :
    ∀ (rem a : Nat) (fs : FS α),
      ∀ p ∈ (retryLoopAux fetcher validator path rem a fs).preStates, p.dirs = fs.dirs := by
  intro rem
  induction rem with
  | zero => intro a fs p hp; simp [retryLoopAux] at hp
  | succ n ih =>
    intro a fs p hp
    cases hc : durValid (postDur validator
        (getFile (fetchWrite fetcher a path fs) path)) with
    | true =>
      rw [retryLoopAux_succ_pos fetcher validator path n a fs hc] at hp
      simp at hp
      rw [hp]
    | false =>
      rw [retryLoopAux_succ_neg fetcher validator path n a fs hc] at hp
      simp only [List.mem_cons] at hp
      rcases hp with heq | htail
      · rw [heq]
      · have := ih (a + 1) (fetchWrite fetcher a path fs) p htail
        rw [this]
        rfl

theorem retryLoopAux_files_other {α : Type} (fetcher : Nat → Option α → Option α)
    (validator : α → Option ℚ) (path q : String) (hq : q ≠ path) :
    ∀ (rem a : Nat) (fs : FS α),
      getFile (retryLoopAux fetcher validator path rem a fs).fs q = getFile fs q := by
  intro rem
  induction rem with
  | zero => intro a fs; rfl
  | succ n ih =>
    intro a fs
    cases hc : durValid (postDur validator
        (getFile (fetchWrite fetcher a path fs) path)) with
    | true =>
      rw [retryLoopAux_succ_pos fetcher validator path n a fs hc]
      exact getFile_setFile_other _ _ _ _ hq
    | false =>
      rw [retryLoopAux_succ_neg fetcher validator path n a fs hc]
      show getFile (retryLoopAux fetcher validator path n (a + 1)
        (fetchWrite fetcher a path fs)).fs q = getFile fs q
      rw [ih]
      exact getFile_setFile_other _ _ _ _ hq

theorem retryLoopAux_allFail {α : Type} (fetcher : Nat → Option α → Option α)
    (validator : α → Option ℚ) (path : String)
    (hfail : ∀ n c, durValid (postDur validator (fetcher n c)) = false) :
    ∀ (rem a : Nat) (fs : FS α),
      (retryLoopAux fetcher validator path rem a fs).attempt = a + rem ∧
      (retryLoopAux fetcher validator path rem a fs).fetches = rem ∧
      (retryLoopAux fetcher validator path rem a fs).retryNums = countFrom (a + 1) rem := by
  intro rem
  induction rem with
  | zero => intro a fs; exact ⟨rfl, rfl, rfl⟩
  | succ n ih =>
    intro a fs
    have hcond : durValid (postDur validator
        (getFile (fetchWrite fetcher a path fs) path)) = false := by
      unfold fetchWrite
      rw [getFile_setFile_same]
      exact hfail a _
    rw [retryLoopAux_succ_neg fetcher validator path n a fs hcond]
    obtain ⟨h1, h2, h3⟩ := ih (a + 1) (fetchWrite fetcher a path fs)
    refine ⟨by simp [h1]; omega, by simp [h2], ?_⟩
    show (a + 1) :: (retryLoopAux fetcher validator path n (a + 1)
      (fetchWrite fetcher a path fs)).retryNums = countFrom (a + 1) (n + 1)
    rw [h3]
    rfl

theorem retryLoopAux_success_valid {α : Type} (fetcher : Nat → Option α → Option α)
    (validator : α → Option ℚ) (path : String) :
    ∀ (rem a : Nat) (fs : FS α),
      (retryLoopAux fetcher validator path rem a fs).attempt ≠ a + rem →
      durValid (postDur validator
        (getFile (retryLoopAux fetcher validator path rem a fs).fs path)) = true := by
  intro rem
  induction rem with
  | zero => intro a fs h; exact absurd rfl h
  | succ n ih =>
    intro a fs h
    cases hc : durValid (postDur validator
        (getFile (fetchWrite fetcher a path fs) path)) with
    | true => rw [retryLoopAux_succ_pos fetcher validator path n a fs hc]; exact hc
    | false =>
      rw [retryLoopAux_succ_neg fetcher validator path n a fs hc] at h ⊢
      show durValid (postDur validator
        (getFile (retryLoopAux fetcher validator path n (a + 1)
          (fetchWrite fetcher a path fs)).fs path)) = true
      refine ih (a + 1) (fetchWrite fetcher a path fs) ?_
      intro heq
      apply h
      show (retryLoopAux fetcher validator path n (a + 1)
        (fetchWrite fetcher a path fs)).attempt = a + (n + 1)
      omega

theorem retryLoopAux_exhaust_invalid {α : Type} (fetcher : Nat → Option α → Option α)
    (validator : α → Option ℚ) (path : String) :
    ∀ (rem a : Nat) (fs : FS α),
      durValid (postDur validator (getFile fs path)) = false →
      (retryLoopAux fetcher validator path rem a fs).attempt = a + rem →
      durValid (postDur validator
        (getFile (retryLoopAux fetcher validator path rem a fs).fs path)) = false := by
  intro rem
  induction rem with
  | zero => intro a fs hin _; exact hin
  | succ n ih =>
    intro a fs hin hatt
    cases hc : durValid (postDur validator
        (getFile (fetchWrite fetcher a path fs) path)) with
    | true =>
      rw [retryLoopAux_succ_pos fetcher validator path n a fs hc] at hatt
      simp at hatt
    | false =>
      rw [retryLoopAux_succ_neg fetcher validator path n a fs hc] at hatt ⊢
      simp at hatt
      refine ih (a + 1) (fetchWrite fetcher a path fs) hc ?_
      omega

theorem retryLoopAux_head_pre {α : Type} (fetcher : Nat → Option α → Option α)
    (validator : α → Option ℚ) (path : String) (rem a : Nat) (fs p : FS α)
    (h : (retryLoopAux fetcher validator path rem a fs).preStates.head? = some p) :
    p = fs := by
  cases rem with
  | zero => simp [retryLoopAux] at h
  | succ n =>
    cases hc : durValid (postDur validator
        (getFile (fetchWrite fetcher a path fs) path)) with
    | true =>
      rw [retryLoopAux_succ_pos fetcher validator path n a fs hc] at h
      simp at h
      exact h.symm
    | false =>
      rw [retryLoopAux_succ_neg fetcher validator path n a fs hc] at h
      simp at h
      exact h.symm

theorem retryLoopAux_chain {α : Type} (fetcher : Nat → Option α → Option α)
    (validator : α → Option ℚ) (path : String) :
    ∀ (rem a i : Nat) (fs p q : FS α),
      (retryLoopAux fetcher validator path rem a fs).preStates.get? i = some p →
      (retryLoopAux fetcher validator path rem a fs).preStates.get? (i + 1) = some q →
      q = fetchWrite fetcher (a + i) path p := by
  intro rem
  induction rem with
  | zero => intro a i fs p q hp _; simp [retryLoopAux] at hp
  | succ n ih =>
    intro a i fs p q hp hq
    cases hc : durValid (postDur validator
        (getFile (fetchWrite fetcher a path fs) path)) with
    | true =>
      rw [retryLoopAux_succ_pos fetcher validator path n a fs hc] at hq
      cases i <;> simp at hq
    | false =>
      rw [retryLoopAux_succ_neg fetcher validator path n a fs hc] at hp hq
      cases i with
      | zero =>
        simp at hp
        subst hp
        have hq0 : (retryLoopAux fetcher validator path n (a + 1)
            (fetchWrite fetcher a path fs)).preStates.head? = some q := by
          rw [← List.get?_zero]
          simpa using hq
        rw [retryLoopAux_head_pre fetcher validator path n (a + 1) _ q hq0]
        rfl
      | succ j =>
        have hp2 : (retryLoopAux fetcher validator path n (a + 1)
            (fetchWrite fetcher a path fs)).preStates.get? j = some p := by
          simpa using hp
        have hq2 : (retryLoopAux fetcher validator path n (a + 1)
            (fetchWrite fetcher a path fs)).preStates.get? (j + 1) = some q := by
          simpa using hq
        have := ih (a + 1) j (fetchWrite fetcher a path fs) p q hp2 hq2
        rw [this]
        congr 1
        omega

/-! ### Replication lemmas -/

theorem replicateCopies_dirs {α : Type} (cfg : Config) (name src : String) :
    ∀ (ls : List String) (fs fs' : FS α),
      replicateCopies cfg name src ls fs = .ok fs' → fs'.dirs = fs.dirs := by
  intro ls
  induction ls with
  | nil => intro fs fs' h; simp [replicateCopies] at h; rw [← h]
  | cons l rest ih =>
    intro fs fs' h
    unfold replicateCopies at h
    cases hl : lookupE cfg.machine_to_display_mapping l with
    | error e => rw [hl] at h; simp at h
    | ok d =>
      rw [hl] at h
      rw [ih _ _ h, cp_dirs]

theorem replicateCopies_src {α : Type} (cfg : Config) (name src : String) :
    ∀ (ls : List String) (fs fs' : FS α),
      replicateCopies cfg name src ls fs = .ok fs' →
      getFile fs' src = getFile fs src := by
  intro ls
  induction ls with
  | nil => intro fs fs' h; simp [replicateCopies] at h; rw [← h]
  | cons l rest ih =>
    intro fs fs' h
    unfold replicateCopies at h
    cases hl : lookupE cfg.machine_to_display_mapping l with
    | error e => rw [hl] at h; simp at h
    | ok d =>
      rw [hl] at h
      rw [ih _ _ h, getFile_cp_src]

theorem replicateCopies_pres {α : Type} (cfg : Config) (name src : String) (f : α) :
    ∀ (ls : List String) (fs fs' : FS α),
      getFile fs src = some f →
      replicateCopies cfg name src ls fs = .ok fs' →
      ∀ p, getFile fs p = some f → getFile fs' p = some f := by
  intro ls
  induction ls with
  | nil => intro fs fs' _ h p hp; simp [replicateCopies] at h; rw [← h]; exact hp
  | cons l rest ih =>
    intro fs fs' hsrc h p hp
    unfold replicateCopies at h
    cases hl : lookupE cfg.machine_to_display_mapping l with
    | error e => rw [hl] at h; simp at h
    | ok d =>
      rw [hl] at h
      have hsrc2 : getFile (cp fs src (pathJoin (pathJoin cfg.root_path d) name)) src = some f := by
        rw [getFile_cp_src]; exact hsrc
      refine ih _ _ hsrc2 h p ?_
      by_cases hpt : p = pathJoin (pathJoin cfg.root_path d) name
      · subst hpt; exact getFile_cp_target _ _ _ _ hsrc
      · rw [getFile_cp_other _ _ _ _ hpt]; exact hp

theorem replicateCopies_target {α : Type} (cfg : Config) (name src : String) (f : α) :
    ∀ (ls : List String) (fs fs' : FS α),
      getFile fs src = some f →
      replicateCopies cfg name src ls fs = .ok fs' →
      ∀ l ∈ ls, ∀ d, List.lookup l cfg.machine_to_display_mapping = some d →
        getFile fs' (pathJoin (pathJoin cfg.root_path d) name) = some f := by
  intro ls
  induction ls with
  | nil => intro fs fs' _ _ l hl; simp at hl
  | cons l0 rest ih =>
    intro fs fs' hsrc h l hl d hd
    unfold replicateCopies at h
    cases hl0 : lookupE cfg.machine_to_display_mapping l0 with
    | error e => rw [hl0] at h; simp at h
    | ok d0 =>
      rw [hl0] at h
      have hsrc2 : getFile (cp fs src (pathJoin (pathJoin cfg.root_path d0) name)) src = some f := by
        rw [getFile_cp_src]; exact hsrc
      rcases List.mem_cons.mp hl with heq | htail
      · subst heq
        have hd0 : d0 = d := by
          unfold lookupE at hl0
          rw [hd] at hl0
          simp at hl0
          exact hl0.symm
        subst hd0
        refine replicateCopies_pres cfg name src f rest _ _ hsrc2 h _ ?_
        exact getFile_cp_target _ _ _ _ hsrc
      · exact ih _ _ hsrc2 h l htail d hd

/-! ### Characterization of the loop phase and of a whole run -/

theorem downloadLoopPhase_cases {α : Type} (cfg : Config) (validator : α → Option ℚ)
    (fetcher : Nat → Option α → Option α) (labels : List String)
    (path name : String) (fs : FS α) (r : RunResult α)
    (h : downloadLoopPhase cfg validator fetcher labels path name fs = .ok r) :
    r.fetches = (retryLoopAux fetcher validator path cfg.max_retries 0 fs).fetches ∧
    r.preStates = (retryLoopAux fetcher validator path cfg.max_retries 0 fs).preStates ∧
    r.retryNums = (retryLoopAux fetcher validator path cfg.max_retries 0 fs).retryNums ∧
    (((retryLoopAux fetcher validator path cfg.max_retries 0 fs).attempt = cfg.max_retries ∧
        r.outcome = .Failed ∧
        r.fs = (retryLoopAux fetcher validator path cfg.max_retries 0 fs).fs) ∨
     ((retryLoopAux fetcher validator path cfg.max_retries 0 fs).attempt ≠ cfg.max_retries ∧
        r.outcome = .Succeeded ∧
        ((cfg.copy_and_replicate = true ∧
            replicateCopies cfg name path labels.tail
              (retryLoopAux fetcher validator path cfg.max_retries 0 fs).fs = .ok r.fs) ∨
         (cfg.copy_and_replicate = false ∧
            r.fs = (retryLoopAux fetcher validator path cfg.max_retries 0 fs).fs)))) := by
  unfold downloadLoopPhase at h
  by_cases hatt : (retryLoopAux fetcher validator path cfg.max_retries 0 fs).attempt
      = cfg.max_retries
  · rw [if_pos hatt] at h
    simp at h
    subst h
    exact ⟨rfl, rfl, rfl, Or.inl ⟨hatt, rfl, rfl⟩⟩
  · rw [if_neg hatt] at h
    cases hc : cfg.copy_and_replicate with
    | true =>
      rw [hc] at h
      simp at h
      cases hrep : replicateCopies cfg name path labels.tail
          (retryLoopAux fetcher validator path cfg.max_retries 0 fs).fs with
      | error e => rw [hrep] at h; simp at h
      | ok fs2 =>
        rw [hrep] at h
        simp at h
        subst h
        exact ⟨rfl, rfl, rfl, Or.inr ⟨hatt, rfl, Or.inl ⟨rfl, rfl⟩⟩⟩
    | false =>
      rw [hc] at h
      simp at h
      subst h
      exact ⟨rfl, rfl, rfl, Or.inr ⟨hatt, rfl, Or.inr ⟨rfl, rfl⟩⟩⟩

theorem download_file_shape {α : Type} (cfg : Config) (validator : α → Option ℚ)
    (fetcher : Nat → Option α → Option α) (t : DownloadTask) (fs : FS α)
    (r : RunResult α) (path : String)
    (hpath : canonicalPath cfg t = .ok path)
    (hrun : download_file cfg validator fetcher t fs = .ok r) :
    ∃ fs1, makedirsPhase cfg t fs = .ok fs1 ∧ fs1.files = fs.files ∧
      ((∃ f, getFile fs path = some f ∧ durValid (validator f) = true ∧
          r = ⟨.Skipped, fs1, 0, [], []⟩)
       ∨ (durValid (postDur validator (getFile fs path)) = false ∧
          ∃ fs2, getFile fs2 path = none ∧ fs2.dirs = fs1.dirs ∧
            (∀ q, q ≠ path → getFile fs2 q = getFile fs q) ∧
            downloadLoopPhase cfg validator fetcher (taskLabels t) path
              (fileNameOf cfg t) fs2 = .ok r)) := by
  unfold download_file at hrun
  cases hmk : makedirsPhase cfg t fs with
  | error e => rw [hmk] at hrun; simp at hrun
  | ok fs1 =>
    rw [hmk] at hrun
    dsimp only at hrun
    have hfiles : fs1.files = fs.files := makedirsPhase_files _ _ _ _ hmk
    have hgf : ∀ q, getFile fs1 q = getFile fs q := by
      intro q; unfold getFile; rw [hfiles]
    rw [hpath] at hrun
    dsimp only at hrun
    refine ⟨fs1, rfl, hfiles, ?_⟩
    cases hex : getFile fs1 path with
    | some f =>
      rw [hex] at hrun
      dsimp only at hrun
      by_cases hv : durValid (validator f) = true
      · rw [if_pos hv] at hrun
        simp at hrun
        left
        exact ⟨f, by rw [← hgf]; exact hex, hv, hrun.symm⟩
      · rw [if_neg hv] at hrun
        right
        constructor
        · rw [← hgf path, hex]
          rw [durValid_postDur_some]
          exact Bool.eq_false_iff.mpr hv
        · refine ⟨removeFile fs1 path, getFile_removeFile_same _ _, rfl, ?_, hrun⟩
          intro q hq
          rw [getFile_removeFile_other _ _ _ hq, hgf]
    | none =>
      rw [hex] at hrun
      dsimp only at hrun
      right
      constructor
      · rw [← hgf path, hex]
        rfl
      · refine ⟨fs1, hex, rfl, fun q _ => hgf q, hrun⟩

theorem download_file_ok_path {α : Type} (cfg : Config) (validator : α → Option ℚ)
    (fetcher : Nat → Option α → Option α) (t : DownloadTask) (fs : FS α)
    (r : RunResult α) (hrun : download_file cfg validator fetcher t fs = .ok r) :
    ∃ path, canonicalPath cfg t = .ok path := by
  unfold download_file at hrun
  cases hmk : makedirsPhase cfg t fs with
  | error e => rw [hmk] at hrun; simp at hrun
  | ok fs1 =>
    rw [hmk] at hrun
    cases hp : canonicalPath cfg t with
    | error e => rw [hp] at hrun; simp at hrun
    | ok path => exact ⟨path, rfl⟩

theorem run_canonical_valid {α : Type} (cfg : Config) (validator : α → Option ℚ)
    (fetcher : Nat → Option α → Option α) (t : DownloadTask) (fs : FS α)
    (r : RunResult α) (path : String)
    (hpath : canonicalPath cfg t = .ok path)
    (hrun : download_file cfg validator fetcher t fs = .ok r)
    (hout : r.outcome = .Skipped ∨ r.outcome = .Succeeded) :
    ∃ f, getFile r.fs path = some f ∧ durValid (validator f) = true := by
  obtain ⟨fs1, hmk, hfiles, hcase⟩ :=
    download_file_shape cfg validator fetcher t fs r path hpath hrun
  rcases hcase with ⟨f, hf, hv, hr⟩ | ⟨_, fs2, hnone, _, _, hphase⟩
  · refine ⟨f, ?_, hv⟩
    rw [hr]
    show getFile fs1 path = some f
    unfold getFile
    rw [hfiles]
    exact hf
  · obtain ⟨_, _, _, hdisj⟩ := downloadLoopPhase_cases cfg validator fetcher
      (taskLabels t) path (fileNameOf cfg t) fs2 r hphase
    rcases hdisj with ⟨_, hfl, _⟩ | ⟨hatt, _, hsucc⟩
    · rcases hout with h | h <;> rw [hfl] at h <;> simp at h
    · have hattn : (retryLoopAux fetcher validator path cfg.max_retries 0 fs2).attempt
          ≠ 0 + cfg.max_retries := by
        simpa using hatt
      have hvalid := retryLoopAux_success_valid fetcher validator path
        cfg.max_retries 0 fs2 hattn
      obtain ⟨f, hLf, hfv⟩ := durValid_postDur_elim validator _ hvalid
      rcases hsucc with ⟨_, hrep⟩ | ⟨_, hfs⟩
      · refine ⟨f, ?_, hfv⟩
        rw [replicateCopies_src cfg (fileNameOf cfg t) path (taskLabels t).tail _ _ hrep]
        exact hLf
      · refine ⟨f, ?_, hfv⟩
        rw [hfs]
        exact hLf

theorem skip_on_valid {α : Type} (cfg : Config) (validator : α → Option ℚ)
    (fetcher : Nat → Option α → Option α) (t : DownloadTask) (fs : FS α)
    (path : String) (f : α)
    (hpath : canonicalPath cfg t = .ok path)
    (hmk : ∃ fs1 : FS α, makedirsPhase cfg t fs = .ok fs1)
    (hf : getFile fs path = some f) (hv : durValid (validator f) = true) :
    ∃ r, download_file cfg validator fetcher t fs = .ok r ∧
      r.outcome = .Skipped ∧ r.fetches = 0 := by
  obtain ⟨fs1, hmk1⟩ := hmk
  have hgf : getFile fs1 path = some f := by
    unfold getFile
    rw [makedirsPhase_files _ _ _ _ hmk1]
    exact hf
  refine ⟨⟨.Skipped, fs1, 0, [], []⟩, ?_, rfl, rfl⟩
  unfold download_file
  rw [hmk1]
  dsimp only
  rw [hpath]
  dsimp only
  rw [hgf]
  dsimp only
  rw [if_pos hv]

/-! ### Claim theorems -/

/-- C1.  If the canonical destination file already exists and the validator
reports a strictly positive duration, `download_file` returns `Skipped` with
zero fetch calls; if the file exists but the validator reports `0` or nothing,
the file is gone from the filesystem state at the moment the first fetch call
starts (it is deleted by the `os.remove` of line 148); and after any run that
ends `Skipped` or `Succeeded`, a second run of the pipeline on the same task
against the resulting filesystem, with the same validator (no underlying data
change) and any fetcher at all, returns `Skipped` and performs zero fetch
calls. -/
theorem C1_skip_and_idempotence {α : Type} (cfg : Config) (validator : α → Option ℚ)
    (fetcher fetcher2 : Nat → Option α → Option α) (t : DownloadTask) (fs : FS α)
    (path : String) (hpath : canonicalPath cfg t = .ok path) :
    (∀ f r, getFile fs path = some f → durValid (validator f) = true →
       download_file cfg validator fetcher t fs = .ok r →
       r.outcome = .Skipped ∧ r.fetches = 0) ∧
    (∀ f r p, getFile fs path = some f → durValid (validator f) = false →
       download_file cfg validator fetcher t fs = .ok r →
       r.preStates.head? = some p → getFile p path = none) ∧
    (∀ r, download_file cfg validator fetcher t fs = .ok r →
       r.outcome = .Skipped ∨ r.outcome = .Succeeded →
       ∃ r2, download_file cfg validator fetcher2 t r.fs = .ok r2 ∧
         r2.outcome = .Skipped ∧ r2.fetches = 0) := by
  refine ⟨?_, ?_, ?_⟩
  · intro f r hf hv hrun
    obtain ⟨fs1, hmk, hfiles, hcase⟩ :=
      download_file_shape cfg validator fetcher t fs r path hpath hrun
    rcases hcase with ⟨f2, _, _, hr⟩ | ⟨hinv, _⟩
    · rw [hr]; exact ⟨rfl, rfl⟩
    · rw [hf, durValid_postDur_some] at hinv
      rw [hv] at hinv
      simp at hinv
  · intro f r p hf hv hrun hhead
    obtain ⟨fs1, hmk, hfiles, hcase⟩ :=
      download_file_shape cfg validator fetcher t fs r path hpath hrun
    rcases hcase with ⟨f2, hf2, hv2, hr⟩ | ⟨_, fs2, hnone, _, _, hphase⟩
    · rw [hf] at hf2
      have : f = f2 := by simpa using hf2
      subst this
      rw [hv] at hv2
      simp at hv2
    · obtain ⟨_, hpre, _, _⟩ := downloadLoopPhase_cases cfg validator fetcher
        (taskLabels t) path (fileNameOf cfg t) fs2 r hphase
      rw [hpre] at hhead
      rw [retryLoopAux_head_pre fetcher validator path cfg.max_retries 0 fs2 p hhead]
      exact hnone
  · intro r hrun hout
    obtain ⟨f, hf, hv⟩ :=
      run_canonical_valid cfg validator fetcher t fs r path hpath hrun hout
    obtain ⟨fs1, hmk, _, _⟩ :=
      download_file_shape cfg validator fetcher t fs r path hpath hrun
    obtain ⟨gs1, hmk2⟩ := makedirsPhase_ok_any cfg t fs r.fs fs1 hmk
    exact skip_on_valid cfg validator fetcher2 t r.fs path f hpath ⟨gs1, hmk2⟩ hf hv

/-- C2.  For a task whose fetcher always fails validation (and whose canonical
file is not already present and valid, so that the retry loop is actually
entered), `download_file` makes exactly `max_retries` fetch calls, returns
`Failed`, and the `[RETRY]` reporting prints the attempt numbers
`1, 2, ..., max_retries` — numbering starts at 1. -/
theorem C2_retry_bound {α : Type} (cfg : Config) (validator : α → Option ℚ)
    (fetcher : Nat → Option α → Option α) (t : DownloadTask) (fs : FS α)
    (r : RunResult α) (path : String)
    (hpath : canonicalPath cfg t = .ok path)
    (hfail : ∀ n c, durValid (postDur validator (fetcher n c)) = false)
    (hpre : ∀ f, getFile fs path = some f → durValid (validator f) = false)
    (hrun : download_file cfg validator fetcher t fs = .ok r) :
    r.outcome = .Failed ∧ r.fetches = cfg.max_retries ∧
      r.retryNums = countFrom 1 cfg.max_retries := by
  obtain ⟨fs1, hmk, hfiles, hcase⟩ :=
    download_file_shape cfg validator fetcher t fs r path hpath hrun
  rcases hcase with ⟨f, hf, hv, _⟩ | ⟨_, fs2, _, _, _, hphase⟩
  · rw [hpre f hf] at hv
    simp at hv
  · obtain ⟨hfet, _, hnums, hdisj⟩ := downloadLoopPhase_cases cfg validator fetcher
      (taskLabels t) path (fileNameOf cfg t) fs2 r hphase
    obtain ⟨ha, hb, hc⟩ := retryLoopAux_allFail fetcher validator path hfail
      cfg.max_retries 0 fs2
    rcases hdisj with ⟨_, hfl, _⟩ | ⟨hatt, _, _⟩
    · refine ⟨hfl, ?_, ?_⟩
      · rw [hfet, hb]
      · rw [hnums, hc]
    · exact absurd (by omega : (retryLoopAux fetcher validator path
        cfg.max_retries 0 fs2).attempt = cfg.max_retries) hatt

/-- C3 (amended).  When `download_file` returns `Failed`, the canonical path
may still hold the last attempt's output — the code has no deletion on the
`[FAILED]` return path — but it never holds a validator-valid file: whatever
file is present (if any) fails the duration check.  The invalid leftover is
only removed by the existence check at the start of a later run. -/
theorem C3_failed_no_valid_file {α : Type} (cfg : Config) (validator : α → Option ℚ)
    (fetcher : Nat → Option α → Option α) (t : DownloadTask) (fs : FS α)
    (r : RunResult α) (path : String)
    (hpath : canonicalPath cfg t = .ok path)
    (hrun : download_file cfg validator fetcher t fs = .ok r)
    (hfl : r.outcome = .Failed) :
    ∀ f, getFile r.fs path = some f → durValid (validator f) = false := by
  intro f hf
  obtain ⟨fs1, hmk, hfiles, hcase⟩ :=
    download_file_shape cfg validator fetcher t fs r path hpath hrun
  rcases hcase with ⟨f2, _, _, hr⟩ | ⟨_, fs2, hnone, _, _, hphase⟩
  · rw [hr] at hfl; simp at hfl
  · obtain ⟨_, _, _, hdisj⟩ := downloadLoopPhase_cases cfg validator fetcher
      (taskLabels t) path (fileNameOf cfg t) fs2 r hphase
    rcases hdisj with ⟨hatt, _, hfs⟩ | ⟨_, hsuc, _⟩
    · have hin : durValid (postDur validator (getFile fs2 path)) = false := by
        rw [hnone]; rfl
      have hend := retryLoopAux_exhaust_invalid fetcher validator path
        cfg.max_retries 0 fs2 hin (by omega)
      rw [hfs] at hf
      rw [hf, durValid_postDur_some] at hend
      exact hend
    · rw [hsuc] at hfl; simp at hfl

/-- C4 (amended).  Between two consecutive fetch attempts nothing is deleted:
the filesystem at the start of attempt `i+1` is exactly the filesystem at the
start of attempt `i` after the fetch of attempt `i` rewrote the canonical
path.  In particular a corrupt file left by attempt `i` is still in place when
attempt `i+1` begins; invalid files are deleted only by the pre-loop existence
check (line 148), never inside the retry loop. -/
theorem C4_no_deletion_between_attempts {α : Type} (cfg : Config)
    (validator : α → Option ℚ) (fetcher : Nat → Option α → Option α)
    (t : DownloadTask) (fs : FS α) (r : RunResult α) (path : String) (i : Nat)
    (p q : FS α)
    (hpath : canonicalPath cfg t = .ok path)
    (hrun : download_file cfg validator fetcher t fs = .ok r)
    (hp : r.preStates.get? i = some p)
    (hq : r.preStates.get? (i + 1) = some q) :
    q = fetchWrite fetcher i path p := by
  obtain ⟨fs1, hmk, hfiles, hcase⟩ :=
    download_file_shape cfg validator fetcher t fs r path hpath hrun
  rcases hcase with ⟨f2, _, _, hr⟩ | ⟨_, fs2, _, _, _, hphase⟩
  · rw [hr] at hp; simp at hp
  · obtain ⟨_, hpre, _, _⟩ := downloadLoopPhase_cases cfg validator fetcher
      (taskLabels t) path (fileNameOf cfg t) fs2 r hphase
    rw [hpre] at hp hq
    have := retryLoopAux_chain fetcher validator path cfg.max_retries 0 i fs2 p q hp hq
    simpa using this

/-- Raising branch of the label lookup: when the task's primary label is
absent from `machine_to_display_mapping`, `download_file` raises `KeyError`
(either in the `os.makedirs` loop of lines 130-135 or while building
`first_display_label` on line 140) instead of returning an outcome. -/
theorem download_file_unknown_primary {α : Type} (cfg : Config)
    (validator : α → Option ℚ) (fetcher : Nat → Option α → Option α)
    (t : DownloadTask) (fs : FS α)
    (hl : List.lookup (primaryLabel t) cfg.machine_to_display_mapping = none) :
    ∃ e, download_file cfg validator fetcher t fs = .error e := by
  have hlE : lookupE cfg.machine_to_display_mapping (primaryLabel t) =
      .error ("KeyError: " ++ primaryLabel t) := by
    unfold lookupE
    rw [hl]
  cases hc : cfg.copy_and_replicate with
  | false =>
    refine ⟨"KeyError: " ++ primaryLabel t, ?_⟩
    unfold download_file makedirsPhase
    rw [hc, if_neg Bool.false_ne_true, hlE]
  | true =>
    cases htl : taskLabels t with
    | nil =>
      refine ⟨"KeyError: " ++ primaryLabel t, ?_⟩
      unfold download_file makedirsPhase canonicalPath
      rw [hc, if_pos rfl, htl, hlE]
      rfl
    | cons l rest =>
      have hpl : primaryLabel t = l := by
        unfold primaryLabel
        rw [htl]
        rfl
      refine ⟨"KeyError: " ++ primaryLabel t, ?_⟩
      unfold download_file makedirsPhase
      rw [hc, if_pos rfl, htl]
      unfold ensureDirs
      rw [← hpl, hlE]

/-- C6 (amended).  A task that references a label code absent from the
mapping raises an uncaught `KeyError` inside `download_file`; under the
sequential dispatcher (`joblib.Parallel` with the default `n_jobs=1`) the
exception propagates out of the dispatch loop, so the batch is aborted:
no outcome list is produced and the tasks after the failing one never run.
The error is not contained as a per-task outcome. -/
theorem C6_unknown_label_aborts_batch {α : Type} (cfg : Config)
    (validator : α → Option ℚ)
    (fetcher : DownloadTask → Nat → Option α → Option α)
    (t0 t1 : DownloadTask) (fs : FS α)
    (hl : List.lookup (primaryLabel t0) cfg.machine_to_display_mapping = none) :
    ∃ e, download_file cfg validator (fetcher t0) t0 fs = .error e ∧
      dispatchAll cfg validator fetcher [(0, t0), (1, t1)] fs = .error e := by
  obtain ⟨e, he⟩ := download_file_unknown_primary cfg validator (fetcher t0) t0 fs hl
  refine ⟨e, he, ?_⟩
  show dispatchLoop cfg validator fetcher [(0, t0), (1, t1)] [0, 1] fs = .error e
  unfold dispatchLoop
  have h0 : locRow [(0, t0), (1, t1)] 0 = .ok t0 := rfl
  rw [h0]
  dsimp only
  rw [he]

/-- C7.  For a task with label set `[la, lb, lc]` whose run returns
`Succeeded`: with `copy_and_replicate = true` the same file contents sit at
the destination path of each of the three labels (the canonical file under
the primary label, copies of it under the other two); with
`copy_and_replicate = false` a file exists under the primary label only —
the other two destination paths (assumed distinct from the canonical one and
initially empty) still hold no file. -/
theorem C7_replication {α : Type} (cfg : Config) (validator : α → Option ℚ)
    (fetcher : Nat → Option α → Option α) (t : DownloadTask) (fs : FS α)
    (r : RunResult α) (la lb lc da db dc : String)
    (hlabels : taskLabels t = [la, lb, lc])
    (hda : List.lookup la cfg.machine_to_display_mapping = some da)
    (hdb : List.lookup lb cfg.machine_to_display_mapping = some db)
    (hdc : List.lookup lc cfg.machine_to_display_mapping = some dc)
    (hrun : download_file cfg validator fetcher t fs = .ok r)
    (hsucc : r.outcome = .Succeeded) :
    (cfg.copy_and_replicate = true →
       ∃ f, getFile r.fs (labelPath cfg da t) = some f ∧
            getFile r.fs (labelPath cfg db t) = some f ∧
            getFile r.fs (labelPath cfg dc t) = some f) ∧
    (cfg.copy_and_replicate = false →
       getFile fs (labelPath cfg db t) = none →
       getFile fs (labelPath cfg dc t) = none →
       labelPath cfg db t ≠ labelPath cfg da t →
       labelPath cfg dc t ≠ labelPath cfg da t →
       (∃ f, getFile r.fs (labelPath cfg da t) = some f) ∧
       getFile r.fs (labelPath cfg db t) = none ∧
       getFile r.fs (labelPath cfg dc t) = none) := by
  have hprim : primaryLabel t = la := by
    unfold primaryLabel
    rw [hlabels]
    rfl
  have hpath : canonicalPath cfg t = .ok (labelPath cfg da t) := by
    unfold canonicalPath lookupE
    rw [hprim, hda]
  obtain ⟨fs1, hmk, hfiles, hcase⟩ :=
    download_file_shape cfg validator fetcher t fs r (labelPath cfg da t) hpath hrun
  rcases hcase with ⟨f2, _, _, hr⟩ | ⟨_, fs2, hnone, _, hother, hphase⟩
  · rw [hr] at hsucc; simp at hsucc
  · obtain ⟨_, _, _, hdisj⟩ := downloadLoopPhase_cases cfg validator fetcher
      (taskLabels t) (labelPath cfg da t) (fileNameOf cfg t) fs2 r hphase
    rcases hdisj with ⟨_, hfl, _⟩ | ⟨hatt, _, hsucc2⟩
    · rw [hfl] at hsucc; simp at hsucc
    · have hattn : (retryLoopAux fetcher validator (labelPath cfg da t)
          cfg.max_retries 0 fs2).attempt ≠ 0 + cfg.max_retries := by
        simpa using hatt
      have hvalid := retryLoopAux_success_valid fetcher validator
        (labelPath cfg da t) cfg.max_retries 0 fs2 hattn
      obtain ⟨f, hLf, hfv⟩ := durValid_postDur_elim validator _ hvalid
      constructor
      · intro hc
        rcases hsucc2 with ⟨_, hrep⟩ | ⟨hc2, _⟩
        · have htail : (taskLabels t).tail = [lb, lc] := by rw [hlabels]; rfl
          rw [htail] at hrep
          refine ⟨f, ?_, ?_, ?_⟩
          · rw [replicateCopies_src cfg (fileNameOf cfg t) (labelPath cfg da t)
              [lb, lc] _ _ hrep]
            exact hLf
          · have := replicateCopies_target cfg (fileNameOf cfg t)
              (labelPath cfg da t) f [lb, lc] _ _ hLf hrep lb (by simp) db hdb
            exact this
          · have := replicateCopies_target cfg (fileNameOf cfg t)
              (labelPath cfg da t) f [lb, lc] _ _ hLf hrep lc (by simp) dc hdc
            exact this
        · rw [hc] at hc2; simp at hc2
      · intro hc hb0 hc0 hbneq hcneq
        rcases hsucc2 with ⟨hc2, _⟩ | ⟨_, hfs⟩
        · rw [hc] at hc2; simp at hc2
        · refine ⟨⟨f, by rw [hfs]; exact hLf⟩, ?_, ?_⟩
          · rw [hfs]
            rw [retryLoopAux_files_other fetcher validator (labelPath cfg da t)
              (labelPath cfg db t) hbneq]
            rw [hother _ hbneq]
            exact hb0
          · rw [hfs]
            rw [retryLoopAux_files_other fetcher validator (labelPath cfg da t)
              (labelPath cfg dc t) hcneq]
            rw [hother _ hcneq]
            exact hc0

/-- C8.  The duration policy: an unreported duration (`None` from the probe)
and a duration of exactly `0` are treated as invalid by the test
`duration and duration > 0.0`; the test passes precisely for a strictly
positive reported duration.  Consequently a run can end `Skipped` or
`Succeeded` only with a file at the canonical path whose validator-reported
duration is strictly positive — in both the skip-if-existing check and the
post-fetch check the success branch is unreachable otherwise. -/
theorem C8_duration_policy {α : Type} (cfg : Config) (validator : α → Option ℚ)
    (fetcher : Nat → Option α → Option α) (t : DownloadTask) (fs : FS α)
    (path : String) (hpath : canonicalPath cfg t = .ok path) :
    durValid (none : Option ℚ) = false ∧
    durValid (some (0 : ℚ)) = false ∧
    (∀ d : ℚ, durValid (some d) = true ↔ 0 < d) ∧
    (∀ r, download_file cfg validator fetcher t fs = .ok r →
       r.outcome = .Skipped ∨ r.outcome = .Succeeded →
       ∃ f d, getFile r.fs path = some f ∧ validator f = some d ∧ 0 < d) := by
  refine ⟨rfl, by decide, ?_, ?_⟩
  · intro d
    constructor
    · intro h
      simp [durValid] at h
      exact h.2
    · intro h
      simp [durValid]
      exact ⟨ne_of_gt h, h⟩
  · intro r hrun hout
    obtain ⟨f, hf, hv⟩ :=
      run_canonical_valid cfg validator fetcher t fs r path hpath hrun hout
    obtain ⟨d, hd, hdpos⟩ := durValid_elim _ hv
    exact ⟨f, d, hf, hd, hdpos⟩

/-- C9.  The label directories are created by `os.makedirs` before the
existence check and before any fetch attempt — all of the task's label
directories when `copy_and_replicate` is true, only the primary label's when
false.  They are present in the final filesystem whatever the outcome
(`Skipped`, `Succeeded` or `Failed`), and already present in the filesystem
state at the start of every fetch attempt. -/
theorem C9_directories_created {α : Type} (cfg : Config) (validator : α → Option ℚ)
    (fetcher : Nat → Option α → Option α) (t : DownloadTask) (fs : FS α)
    (r : RunResult α)
    (hrun : download_file cfg validator fetcher t fs = .ok r) :
    (cfg.copy_and_replicate = true →
       ∀ l ∈ taskLabels t, ∀ d, List.lookup l cfg.machine_to_display_mapping = some d →
         pathJoin cfg.root_path d ∈ r.fs.dirs ∧
         ∀ p ∈ r.preStates, pathJoin cfg.root_path d ∈ p.dirs) ∧
    (cfg.copy_and_replicate = false →
       ∀ d, List.lookup (primaryLabel t) cfg.machine_to_display_mapping = some d →
         pathJoin cfg.root_path d ∈ r.fs.dirs ∧
         ∀ p ∈ r.preStates, pathJoin cfg.root_path d ∈ p.dirs) := by
  obtain ⟨path, hpath⟩ := download_file_ok_path cfg validator fetcher t fs r hrun
  obtain ⟨fs1, hmk, hfiles, hcase⟩ :=
    download_file_shape cfg validator fetcher t fs r path hpath hrun
  have hkeep : ∀ x, x ∈ fs1.dirs → x ∈ r.fs.dirs ∧ ∀ p ∈ r.preStates, x ∈ p.dirs := by
    intro x hx
    rcases hcase with ⟨_, _, _, hr⟩ | ⟨_, fs2, _, hdirs2, _, hphase⟩
    · rw [hr]
      exact ⟨hx, by intro p hp; simp at hp⟩
    · obtain ⟨_, hpre, _, hdisj⟩ := downloadLoopPhase_cases cfg validator fetcher
        (taskLabels t) path (fileNameOf cfg t) fs2 r hphase
      have hldirs : (retryLoopAux fetcher validator path cfg.max_retries 0 fs2).fs.dirs
          = fs1.dirs := by
        rw [retryLoopAux_dirs, hdirs2]
      constructor
      · rcases hdisj with ⟨_, _, hfs⟩ | ⟨_, _, ⟨_, hrep⟩ | ⟨_, hfs⟩⟩
        · rw [hfs, hldirs]; exact hx
        · rw [replicateCopies_dirs cfg (fileNameOf cfg t) path
            (taskLabels t).tail _ _ hrep, hldirs]
          exact hx
        · rw [hfs, hldirs]; exact hx
      · intro p hp
        rw [hpre] at hp
        have := retryLoopAux_preStates_dirs fetcher validator path
          cfg.max_retries 0 fs2 p hp
        rw [this, hdirs2]
        exact hx
  constructor
  · intro hc l hl d hd
    exact hkeep _ (makedirsPhase_mem_true cfg t fs fs1 hmk hc l hl d hd)
  · intro hc d hd
    exact hkeep _ (makedirsPhase_mem_false cfg t fs fs1 hmk hc d hd)

/-- C10.  The extension of every destination file name is
`{'vorbis':'ogg','wav':'wav','mp3':'mp3','flac':'flac','opus':'opus','m4a':'m4a'}.get(format, format)`:
`vorbis` maps to `ogg`, the five other keys map to themselves, and any format
string outside the dictionary is used verbatim as the extension.  Every
destination file name ends in `.` followed by exactly this extension. -/
theorem C10_extension_mapping :
    extOf "vorbis" = "ogg" ∧ extOf "wav" = "wav" ∧ extOf "mp3" = "mp3" ∧
    extOf "flac" = "flac" ∧ extOf "opus" = "opus" ∧ extOf "m4a" = "m4a" ∧
    (∀ cfg t, fileNameOf cfg t =
       t.ytid ++ "_" ++ t.start_seconds ++ "-" ++ t.end_seconds ++ "."
         ++ extOf cfg.format) ∧
    (∀ s, s ∉ ["vorbis", "wav", "mp3", "flac", "opus", "m4a"] → extOf s = s) := by
  refine ⟨rfl, rfl, rfl, rfl, rfl, rfl, fun cfg t => rfl, ?_⟩
  intro s hs
  simp only [List.mem_cons, List.not_mem_nil, or_false, not_or] at hs
  obtain ⟨h1, h2, h3, h4, h5, h6⟩ := hs
  simp [extOf, extMap, List.lookup,
    beq_eq_false_iff_ne.mpr h1, beq_eq_false_iff_ne.mpr h2,
    beq_eq_false_iff_ne.mpr h3, beq_eq_false_iff_ne.mpr h4,
    beq_eq_false_iff_ne.mpr h5, beq_eq_false_iff_ne.mpr h6]

/-! ### Concrete instances used by the evaluation theorems -/

/-- Concrete probe: content `1` is a valid 10-second file, content `2` is a
zero-duration (corrupt) file, anything else fails to probe. -/
def validNat : Nat → Option ℚ := fun n =>
  if n = 1 then some 10 else if n = 2 then some 0 else none

/-- Concrete label mapping with three machine codes. -/
def mapABC : List (String × String) :=
  [("/m/a", "A"), ("/m/b", "B"), ("/m/c", "C")]

/-- Configuration with `copy_and_replicate = True`, `max_retries = 2`,
`format = 'vorbis'`. -/
def cfgRep2 : Config := ⟨"root", true, 2, "vorbis", mapABC⟩

/-- A task carrying the three labels of `mapABC`. -/
def taskABC : DownloadTask := ⟨"abc", "10.0", "20.0", "/m/a,/m/b,/m/c"⟩

/-- A task whose (primary) label is absent from `mapABC`. -/
def taskUnk : DownloadTask := ⟨"u", "0", "1", "/m/unk"⟩

/-- The empty filesystem. -/
def fsEmptyNat : FS Nat := ⟨[], []⟩

/-- The canonical path of `taskABC` under `cfgRep2`. -/
def pathA : String := "root/A/abc_10.0-20.0.ogg"

/-- A fetcher that always writes the corrupt file `2`. -/
def fetchCorrupt : Nat → Option Nat → Option Nat := fun _ _ => some 2

/-- A fetcher that always writes the valid file `1`. -/
def fetchGood : Nat → Option Nat → Option Nat := fun _ _ => some 1

/-- The per-task fetcher that always writes the valid file `1`. -/
def fetchAnyTask : DownloadTask → Nat → Option Nat → Option Nat :=
  fun _ _ _ => some 1

/-- Extract the `RunResult` of a run known to return one. -/
def runGetD (x : Except String (RunResult Nat)) : RunResult Nat :=
  match x with
  | .ok r => r
  | .error _ => ⟨.Failed, ⟨[], []⟩, 0, [], []⟩

/-- A ten-row catalog (after filtering and `reset_index`). -/
def catalogTen : List DownloadTask :=
  (List.range 10).map (fun n => ⟨toString n, "0", "10", "/m/a"⟩)

/-- Filesystem already holding a valid canonical file for `taskABC`. -/
def fsValidA : FS Nat := setFile fsEmptyNat pathA (some 1)

/-- Run of `taskABC` against `fsValidA` (skips). -/
def rC1 : RunResult Nat :=
  runGetD (download_file cfgRep2 validNat fetchCorrupt taskABC fsValidA)

/-- Run of `taskABC` with the always-corrupt fetcher from the empty
filesystem (fails after 2 attempts). -/
def rC2 : RunResult Nat :=
  runGetD (download_file cfgRep2 validNat fetchCorrupt taskABC fsEmptyNat)

/-- Same failing run, used by the C3 theorems. -/
def rC3 : RunResult Nat :=
  runGetD (download_file cfgRep2 validNat fetchCorrupt taskABC fsEmptyNat)

/-- Same failing run, used by the C4 theorems. -/
def rC4 : RunResult Nat :=
  runGetD (download_file cfgRep2 validNat fetchCorrupt taskABC fsEmptyNat)

/-- The filesystem at the start of the first fetch attempt of `rC4`. -/
def preC4a : FS Nat := ((rC4.preStates.get? 0).getD fsEmptyNat)

/-- The filesystem at the start of the second fetch attempt of `rC4`. -/
def preC4b : FS Nat := ((rC4.preStates.get? 1).getD fsEmptyNat)

/-- Run of `taskABC` with the always-valid fetcher (succeeds, replicates). -/
def rC7 : RunResult Nat :=
  runGetD (download_file cfgRep2 validNat fetchGood taskABC fsEmptyNat)

/-- Successful run used by the C8 witness. -/
def rC8 : RunResult Nat :=
  runGetD (download_file cfgRep2 validNat fetchGood taskABC fsEmptyNat)

/-- Failing run used by the C9 witness. -/
def rC9 : RunResult Nat :=
  runGetD (download_file cfgRep2 validNat fetchCorrupt taskABC fsEmptyNat)

/-! ### Evaluation theorems: counterexamples, the C5 bug, witnesses -/

/-- C1 witness: with a valid file already at the canonical path the run skips
with zero fetches, and a second run on the produced filesystem (any fetcher)
skips again with zero fetches. -/
theorem C1_skip_and_idempotence_witness :
    getFile fsValidA pathA = some 1 ∧ durValid (validNat 1) = true ∧
    rC1.outcome = .Skipped ∧ rC1.fetches = 0 ∧
    (∃ r2, download_file cfgRep2 validNat fetchGood taskABC rC1.fs = .ok r2 ∧
       r2.outcome = .Skipped ∧ r2.fetches = 0) := by
  have h := C1_skip_and_idempotence cfgRep2 validNat fetchCorrupt fetchGood taskABC
    fsValidA pathA (by decide)
  have h1 := h.1 1 rC1 (by decide) (by decide) rfl
  exact ⟨by decide, by decide, h1.1, h1.2, h.2.2 rC1 rfl (Or.inl h1.1)⟩

/-- C2 witness: the always-corrupt fetcher exhausts exactly the 2 configured
attempts, fails, and the `[RETRY]` numbering is `[1, 2]`. -/
theorem C2_retry_bound_witness :
    rC2.outcome = .Failed ∧ rC2.fetches = 2 ∧ rC2.retryNums = countFrom 1 2 := by
  exact C2_retry_bound cfgRep2 validNat fetchCorrupt taskABC fsEmptyNat rC2 pathA
    (by decide)
    (by
      intro n c
      have hc : fetchCorrupt n c = some 2 := rfl
      rw [hc]
      decide)
    (fun f hf => Option.noConfusion (show (none : Option Nat) = some f from hf))
    rfl

/-- C3 counterexample: a run that returns `Failed` with the fetcher leaving a
zero-duration file: the canonical destination path still exists (content `2`)
when `download_file` returns — the claim that the path does not exist after
`Failed` is false on the code. -/
theorem C3_counterexample :
    download_file cfgRep2 validNat fetchCorrupt taskABC fsEmptyNat = .ok rC3 ∧
    canonicalPath cfgRep2 taskABC = .ok pathA ∧
    rC3.outcome = .Failed ∧ getFile rC3.fs pathA = some 2 := by decide

/-- C3 amended witness: the leftover file at the canonical path of the failed
run fails the duration check. -/
theorem C3_failed_no_valid_file_witness :
    rC3.outcome = .Failed ∧ durValid (validNat 2) = false := by
  refine ⟨by decide, ?_⟩
  exact C3_failed_no_valid_file cfgRep2 validNat fetchCorrupt taskABC fsEmptyNat rC3
    pathA (by decide) rfl (by decide) 2 (by decide)

/-- C4 counterexample: in the failing run the filesystem at the start of the
second fetch attempt still holds the invalid file (content `2`, duration `0`)
written by the first attempt — the corrupt file is not deleted before the
next fetch attempt begins. -/
theorem C4_counterexample :
    download_file cfgRep2 validNat fetchCorrupt taskABC fsEmptyNat = .ok rC4 ∧
    rC4.preStates.map (fun p => getFile p pathA) = [none, some 2] ∧
    durValid (validNat 2) = false := by decide

/-- C4 amended witness: the pre-state of attempt 2 is exactly the pre-state
of attempt 1 after the fetch write — nothing was deleted in between. -/
theorem C4_no_deletion_between_attempts_witness :
    rC4.preStates.get? 0 = some preC4a ∧ rC4.preStates.get? 1 = some preC4b ∧
    preC4b = fetchWrite fetchCorrupt 0 pathA preC4a := by
  refine ⟨rfl, rfl, ?_⟩
  exact C4_no_deletion_between_attempts cfgRep2 validNat fetchCorrupt taskABC
    fsEmptyNat rC4 pathA 0 preC4a preC4b (by decide) rfl rfl rfl

/-- C5.  The chunk slice `[5, 8)` of a ten-row catalog does not dispatch the
three tasks 5, 6, 7: `iloc[5:]` followed by `iloc[:8]` keeps the original
rows 5-9 (`end_idx` acts as a count after the drop, not as an end index), and
the dispatch loop then reads `metadata.loc[0], ..., metadata.loc[4]`, which
raises `KeyError: 0` because the sliced frame's labels are 5-9 — the whole
dispatch aborts and no task runs. -/
theorem C5_slice_bug :
    (sliceRows (resetIndex catalogTen) (some 5) (some 8)).map Prod.fst
      = [5, 6, 7, 8, 9] ∧
    downloadPlan catalogTen (some 5) (some 8) = .error "KeyError: 0" := by decide

/-- C6 counterexample: a two-task batch whose first task has an unknown label
aborts with the raised `KeyError`: no outcome list is produced and the second
(healthy) task never runs — the batch is not isolated from the failure. -/
theorem C6_counterexample :
    dispatchAll cfgRep2 validNat fetchAnyTask [(0, taskUnk), (1, taskABC)]
      fsEmptyNat = .error "KeyError: /m/unk" := by decide

/-- C6 amended witness: the unknown label of `taskUnk` makes `download_file`
raise, and the same error aborts the sequential two-task dispatch. -/
theorem C6_unknown_label_aborts_batch_witness :
    List.lookup (primaryLabel taskUnk) cfgRep2.machine_to_display_mapping = none ∧
    (∃ e, download_file cfgRep2 validNat (fetchAnyTask taskUnk) taskUnk fsEmptyNat
        = .error e ∧
      dispatchAll cfgRep2 validNat fetchAnyTask [(0, taskUnk), (1, taskABC)]
        fsEmptyNat = .error e) :=
  ⟨by decide, C6_unknown_label_aborts_batch cfgRep2 validNat fetchAnyTask
    taskUnk taskABC fsEmptyNat (by decide)⟩

/-- C7 witness: the successful replicated run leaves the same file under the
display directories of all three labels. -/
theorem C7_replication_witness :
    taskLabels taskABC = ["/m/a", "/m/b", "/m/c"] ∧
    (∃ f, getFile rC7.fs (labelPath cfgRep2 "A" taskABC) = some f ∧
          getFile rC7.fs (labelPath cfgRep2 "B" taskABC) = some f ∧
          getFile rC7.fs (labelPath cfgRep2 "C" taskABC) = some f) := by
  refine ⟨by decide, ?_⟩
  exact (C7_replication cfgRep2 validNat fetchGood taskABC fsEmptyNat rC7
    "/m/a" "/m/b" "/m/c" "A" "B" "C" (by decide) rfl rfl rfl rfl (by decide)).1 rfl

/-- C8 witness: the duration policy evaluated at `None`, `0` and `10`, and a
successful concrete run whose canonical file has a positive duration. -/
theorem C8_duration_policy_witness :
    durValid (none : Option ℚ) = false ∧ durValid (some (0 : ℚ)) = false ∧
    durValid (some (10 : ℚ)) = true ∧
    (∃ f d, getFile rC8.fs pathA = some f ∧ validNat f = some d ∧ 0 < d) := by
  have h := C8_duration_policy cfgRep2 validNat fetchGood taskABC fsEmptyNat pathA
    (by decide)
  exact ⟨h.1, h.2.1, (h.2.2.1 10).mpr (by norm_num),
    h.2.2.2 rC8 rfl (Or.inr (by decide))⟩

/-- C9 witness: even though the concrete run fails, all three label
directories exist in the final filesystem. -/
theorem C9_directories_created_witness :
    rC9.outcome = .Failed ∧
    pathJoin "root" "A" ∈ rC9.fs.dirs ∧
    pathJoin "root" "B" ∈ rC9.fs.dirs ∧
    pathJoin "root" "C" ∈ rC9.fs.dirs := by
  have h := (C9_directories_created cfgRep2 validNat fetchCorrupt taskABC
    fsEmptyNat rC9 rfl).1 rfl
  exact ⟨by decide,
    (h "/m/a" (by decide) "A" rfl).1,
    (h "/m/b" (by decide) "B" rfl).1,
    (h "/m/c" (by decide) "C" rfl).1⟩

/-- C10 witness: a format string outside the dictionary is used verbatim. -/
theorem C10_extension_mapping_witness :
    ("aac" ∉ ["vorbis", "wav", "mp3", "flac", "opus", "m4a"]) ∧
    extOf "aac" = "aac" :=
  ⟨by decide, C10_extension_mapping.2.2.2.2.2.2.2 "aac" (by decide)⟩
